import Mathlib

/-!
Verification of the OCR batch-conversion pipeline of `src/ocr.py`
(`extract_text_from_image`, `process_single_pdf`, `ocr_pdfs_to_text`,
`batch_ocr_processing`).

Shallow embedding conventions:
* The opaque external capabilities (pdf2image rasterization, tesseract
  recognition) are an injected environment `Env`: `rasterize` models
  `convert_from_path` (returning the page-image list or the exception
  message), `recognize` models the tesseract call on one page image
  (returning the raw text or the exception message).  Page images are an
  abstract type parameter.
* The output directory is a mutable store `Fs : String -> Option String`
  mapping file paths to contents.  `os.path.exists` is `Option.isSome`.
  Writing with `open(path, "w")` either succeeds, replacing the content,
  or is interrupted partway (an I/O exception at byte `k`, field
  `writeCrash`), in which case the Python `except` clause catches the
  error and the file is left holding the first `k` bytes.
* `os.walk(input_folder)` is modelled by its yielded sequence of
  `(dirpath, filenames)` pairs (the code ignores `dirnames`); `osWalk`
  gives the stdlib semantics of that sequence over a directory tree,
  and a missing or empty root yields the empty sequence.
* `ThreadPoolExecutor`/`as_completed` processing is modelled by running
  the submitted documents one-by-one in an arbitrary completion order:
  a `Sched` is a permutation-valued schedule.  Sequential mode runs in
  discovery order.
* Python `str.strip`, `str.lower`, `os.path.basename`, `os.path.splitext`,
  `os.path.join` (posix) and `"\n".join` are embedded directly below.
* `os.makedirs(output_folder, exist_ok=True)` and the logging calls have
  no bearing on any claim and are not modelled (directory creation is
  assumed to succeed).
-/

namespace ChiomaOCR

/-- Python whitespace class used by `str.strip()`: space, tab, newline,
carriage return, vertical tab, form feed. -/
def pyWs (c : Char) : Bool :=
  (c = ' ') || (c = '\t') || (c = '\n') || (c = '\r') || (c = '\x0b') || (c = '\x0c')

/-- Characters of a Python `str.strip()`: drop leading and trailing whitespace. -/
def stripChars (l : List Char) : List Char :=
  ((l.dropWhile pyWs).reverse.dropWhile pyWs).reverse

/-- Python `s.strip()`. -/
def pyStrip (s : String) : String :=
  String.mk (stripChars s.data)

/-- Python `s.lower()` (ASCII case folding suffices for the `.pdf` test). -/
def pyLower (s : String) : String :=
  String.mk (s.data.map Char.toLower)

/-- Python `os.path.basename` (posix): the part after the last slash. -/
def pyBasename (p : String) : String :=
  String.mk ((p.data.reverse.takeWhile (fun c => c ≠ '/')).reverse)

/-- The stem `os.path.splitext(name)[0]` for a path with no directory part:
split at the last dot, except that a name whose characters before the last
dot are all dots (e.g. `".pdf"`) has no extension. -/
def pySplitextStem (name : String) : String :=
  let l := name.data
  let extLen := (l.reverse.takeWhile (fun c => c ≠ '.')).length
  if extLen = l.length then name
  else
    let stem := l.take (l.length - extLen - 1)
    if stem.all (fun c => c = '.') then name else String.mk stem

/-- Python `os.path.join(a, b)` (posix, two arguments). -/
def pyJoin (a b : String) : String :=
  if b.data.head? = some '/' then b
  else if a.data = [] then b
  else if a.data.getLast? = some '/' then a ++ b
  else a ++ "/" ++ b

/-- Python `"\n".join(parts)`. -/
def pyJoinNL : List String → String
  | [] => ""
  | [s] => s
  | s :: rest => s ++ "\n" ++ pyJoinNL rest

/-- The output directory contents: path to file content. -/
abbrev Fs := String → Option String

/-- Write `c` at path `p` (a completed `open(p, "w").write(c)`). -/
def Fs.update (fs : Fs) (p c : String) : Fs :=
  fun q => if q = p then some c else fs q

/-- The opaque external capabilities injected into the pipeline.
`rasterize pdf_path dpi` models `convert_from_path` (page images, or the
exception message); `recognize img` models the tesseract invocation on one
page image (raw text, or the exception message — the fixed
`--psm 6 -c preserve_interword_spaces=1` config and `lang="eng"` are
constants in the source and folded into the capability); `writeCrash path`
is `none` when writing `path` completes and `some k` when the write raises
after `k` bytes. -/
structure Env (Img : Type) where
  rasterize : String → Nat → Except String (List Img)
  recognize : Img → Except String String
  writeCrash : String → Option Nat

/-- A completion schedule for the thread-pool mode: `as_completed` hands the
submitted documents back in some permutation of the submission list. -/
structure Sched where
  perm : List String → List String
  is_perm : ∀ l, List.Perm (perm l) l

/-- The `stats` dictionary built by `ocr_pdfs_to_text`. -/
structure Stats where
  total : Nat
  successful : Nat
  failed : Nat
  errors : List String
  deriving DecidableEq, Repr

/-- Lines 48-66 of `src/ocr.py`: `extract_text_from_image`.  Preprocessing
and the tesseract call sit inside one `try`; their combined outcome is the
`recognized` argument.  On success the text is returned stripped; on any
internal error the empty string is returned. -/
def extract_text_from_image (recognized : Except String String) : String :=
  match recognized with
  | Except.error _ => ""
  | Except.ok text => pyStrip text

/-- Lines 104-108 of `src/ocr.py`: the entry appended to `all_text` for one
page (`page_num` is 1-based). -/
def pageEntry (page_num : Nat) (page_text : String) : String :=
  if page_text ≠ "" then
    "--- Page " ++ toString page_num ++ " ---\n" ++ page_text ++ "\n"
  else
    "--- Page " ++ toString page_num ++ " ---\n[No text extracted]\n"

/-- Lines 98-108 of `src/ocr.py`: the `for page_num, image in
enumerate(images, 1)` loop, producing `all_text`. -/
def pageEntries {Img : Type} (env : Env Img) : Nat → List Img → List String
  | _, [] => []
  | n, img :: rest =>
      pageEntry n (extract_text_from_image (env.recognize img)) ::
        pageEntries env (n + 1) rest

/-- Lines 76-77 of `src/ocr.py`: the expected output path
`os.path.join(output_dir, f"{base_name}.txt")`. -/
def outFile (pdf_path output_dir : String) : String :=
  pyJoin output_dir (pySplitextStem (pyBasename pdf_path) ++ ".txt")

/-- Lines 84-126 of `src/ocr.py`, after the resume check: rasterize,
recognize every page, assemble, and decide what to write.  This part of the
source never consults the output directory again, so it is factored as a
store-independent computation returning the `(success, pdf_path, result)`
triple and the content written to the output file (if any). -/
def convertResult {Img : Type} (env : Env Img) (pdf_path output_dir : String)
    (dpi : Nat) : (Bool × String × String) × Option String :=
  let output_file := outFile pdf_path output_dir
  match env.rasterize pdf_path dpi with
  | Except.error e => ((false, pdf_path, e), none)
  | Except.ok images =>
    if images.isEmpty then
      ((false, pdf_path, "No images extracted"), none)
    else
      let all_text := pageEntries env 1 images
      let full_text := pyJoinNL all_text
      if pyStrip full_text = "" then
        ((false, pdf_path, "No text extracted"), none)
      else
        match env.writeCrash output_file with
        | none => ((true, pdf_path, output_file), some full_text)
        | some k =>
            ((false, pdf_path, "write error"),
              some (String.mk (full_text.data.take k)))

/-- Lines 68-126 of `src/ocr.py`: `process_single_pdf`.  Returns the
`(success, pdf_path, result)` triple together with the updated output
directory. -/
def process_single_pdf {Img : Type} (env : Env Img) (fs : Fs)
    (pdf_path output_dir : String) (dpi : Nat) :
    (Bool × String × String) × Fs :=
  let output_file := outFile pdf_path output_dir
  if (fs output_file).isSome then
    ((true, pdf_path, output_file), fs)
  else
    match convertResult env pdf_path output_dir dpi with
    | (r, none) => (r, fs)
    | (r, some c) => (r, Fs.update fs output_file c)

/-- Processing a list of documents one after the other, threading the
output directory; the outcome triples are collected in processing order. -/
def runDocs {Img : Type} (env : Env Img) (output_dir : String) (dpi : Nat) :
    Fs → List String → List (Bool × String × String) × Fs
  | fs, [] => ([], fs)
  | fs, p :: rest =>
      let step := process_single_pdf env fs p output_dir dpi
      let next := runDocs env output_dir dpi step.2 rest
      (step.1 :: next.1, next.2)

/-- The error-list entry `f"{processed_pdf}: {result}"`. -/
def errEntry (o : Bool × String × String) : String :=
  o.2.1 ++ ": " ++ o.2.2

/-- Lines 185-208 of `src/ocr.py`: folding one outcome into `stats`. -/
def foldStep (s : Stats) (o : Bool × String × String) : Stats :=
  if o.1 then
    { s with successful := s.successful + 1 }
  else
    { s with failed := s.failed + 1, errors := s.errors ++ [errEntry o] }

/-- The statistics after folding every outcome, starting from
`{"total": total, "successful": 0, "failed": 0, "errors": []}`. -/
def foldStats (total : Nat) (outcomes : List (Bool × String × String)) : Stats :=
  outcomes.foldl foldStep { total := total, successful := 0, failed := 0, errors := [] }

/-- Line 171 of `src/ocr.py`: `if max_workers and max_workers > 1` (Python
truthiness: `None` and `0` are falsy). -/
def usesParallel (max_workers : Option Int) : Bool :=
  match max_workers with
  | none => false
  | some w => decide (w ≠ 0 ∧ 1 < w)

/-- Lines 150-154 of `src/ocr.py`: collect, from the sequence yielded by
`os.walk`, every file whose lowercased name ends in `.pdf`, joined to its
directory path. -/
def findPdfFiles (walk : List (String × List String)) : List String :=
  walk.flatMap (fun e =>
    (e.2.filter (fun f => List.isSuffixOf (".pdf").data (pyLower f).data)).map
      (fun f => pyJoin e.1 f))

/-- Lines 128-222 of `src/ocr.py`: `ocr_pdfs_to_text`.  `walk` is the
sequence yielded by `os.walk(input_folder)`; `sched` is the completion
order of the thread pool (used only in parallel mode).  Returns the
statistics and the updated output directory. -/
def ocr_pdfs_to_text {Img : Type} (env : Env Img) (sched : Sched) (fs : Fs)
    (walk : List (String × List String)) (output_folder : String)
    (dpi : Nat) (max_workers : Option Int) : Stats × Fs :=
  let pdf_files := findPdfFiles walk
  if pdf_files.isEmpty then
    ({ total := 0, successful := 0, failed := 0, errors := [] }, fs)
  else
    let order := if usesParallel max_workers then sched.perm pdf_files else pdf_files
    let run := runDocs env output_folder dpi fs order
    (foldStats pdf_files.length run.1, run.2)

/-- A directory tree: the files directly inside, and the named
subdirectories. -/
inductive DirTree where
  | node (files : List String) (subdirs : List (String × DirTree))

/-- The sequence `os.walk(root)` yields over a tree (top-down: the root's
`(dirpath, filenames)` pair first, then each subdirectory in order), with
`dirnames` dropped since the source ignores it. -/
def osWalk (root : String) (t : DirTree) : List (String × List String) :=
  match t with
  | DirTree.node files subdirs =>
      (root, files) ::
        subdirs.attach.flatMap (fun sd => osWalk (pyJoin root sd.1.1) sd.1.2)
termination_by sizeOf t
decreasing_by
  have h1 : sizeOf sd.1 < sizeOf subdirs := List.sizeOf_lt_of_mem sd.2
  cases hsd : sd.1 with
  | mk n u => simp [hsd] at h1 ⊢; omega

/-- The walk of a possibly missing root: `os.walk` of a non-existent
directory yields nothing. -/
def osWalkOpt (root : String) : Option DirTree → List (String × List String)
  | none => []
  | some t => osWalk root t

/-- Specification-side recursive file membership: `HasFile t root d f`
means the tree rooted at path `root` contains, in the directory whose
path is `d`, a file named `f`. -/
inductive HasFile : DirTree → String → String → String → Prop where
  | here {files subdirs root f} :
      f ∈ files → HasFile (DirTree.node files subdirs) root root f
  | there {files subdirs root d f} (sd : String × DirTree) :
      sd ∈ subdirs → HasFile sd.2 (pyJoin root sd.1) d f →
      HasFile (DirTree.node files subdirs) root d f

/-- Strip an expected leading run of characters. -/
def stripHead : List Char → List Char → Option (List Char)
  | [], l => some l
  | _ :: _, [] => none
  | e :: es, c :: cs => if c = e then stripHead es cs else none

/-- Strip an expected trailing run of characters. -/
def stripTail (t l : List Char) : Option (List Char) :=
  (stripHead t.reverse l.reverse).map List.reverse

/-- Recognize a page-marker line `--- Page <middle> ---` and return the
middle part. -/
def isMarkerLine (l : List Char) : Option (List Char) :=
  match stripHead ("--- Page ").data l with
  | none => none
  | some rest => stripTail (" ---").data rest

/-- Split a character list at newlines, Python-file-line style:
`splitLines "a\nb\n" = ["a", "b", ""]`. -/
def splitLines : List Char → List (List Char)
  | [] => [[]]
  | c :: cs =>
      if c = '\n' then [] :: splitLines cs
      else (splitLines cs).modifyHead (fun l => c :: l)

/-- Names bound at module scope in `src/ocr.py` (the imports and the five
function definitions); `logger` is not among them. -/
def pyModuleScope : List String :=
  ["os", "cv2", "np", "Image", "pytesseract", "convert_from_path", "logging",
   "ThreadPoolExecutor", "as_completed", "setup_ocr_logging",
   "preprocess_image", "extract_text_from_image", "process_single_pdf",
   "ocr_pdfs_to_text", "batch_ocr_processing"]

/-- Python builtins referenced by the module; `logger` is not a builtin. -/
def pyBuiltins : List String :=
  ["print", "len", "open", "str", "enumerate", "range", "dict", "list",
   "Exception"]

/-- Python name resolution: a name is found in the local scope, the module
scope, or the builtins; otherwise evaluating it raises `NameError`. -/
def lookupName (locals : List String) (n : String) : Except String Unit :=
  if n ∈ locals ++ pyModuleScope ++ pyBuiltins then Except.ok ()
  else Except.error ("NameError: name " ++ n ++ " is not defined")

/-- Lines 231-236 of `src/ocr.py`: the body of the `for dpi in dpi_list`
loop.  Each iteration computes `output_folder`, then evaluates the name
`logger` (line 233), which is bound neither locally nor at module scope; on
success it would run `ocr_pdfs_to_text(..., max_workers=2)` and record the
statistics. -/
def batch_go {Img : Type} (env : Env Img) (sched : Sched)
    (walk : List (String × List String)) (output_base_folder : String) :
    List Nat → Fs → List (Nat × Stats) →
    Except String (List (Nat × Stats) × Fs)
  | [], fs, results => Except.ok (results, fs)
  | dpi :: rest, fs, results =>
      let output_folder := pyJoin output_base_folder ("dpi_" ++ toString dpi)
      match lookupName
          ["input_folder", "output_base_folder", "dpi_list", "results",
           "dpi", "output_folder"] ("logger") with
      | Except.error e => Except.error e
      | Except.ok _ =>
          let run := ocr_pdfs_to_text env sched fs walk output_folder dpi (some 2)
          batch_go env sched walk output_base_folder rest run.2
            (results ++ [(dpi, run.1)])

/-- Lines 225-238 of `src/ocr.py`: `batch_ocr_processing`. -/
def batch_ocr_processing {Img : Type} (env : Env Img) (sched : Sched) (fs : Fs)
    (walk : List (String × List String)) (output_base_folder : String)
    (dpi_list : List Nat) : Except String (List (Nat × Stats) × Fs) :=
  batch_go env sched walk output_base_folder dpi_list fs []

/-! Concrete instances used by witnesses and counterexamples. -/

/-- An empty output directory. -/
def fsEmpty : Fs := fun _ => none

/-- The identity completion schedule. -/
def schedId : Sched :=
  { perm := fun l => l, is_perm := fun l => List.Perm.refl l }

/-- The reversing completion schedule. -/
def schedRev : Sched :=
  { perm := List.reverse, is_perm := fun l => List.reverse_perm l }

/-- One page that recognizes to empty text; writes succeed. -/
def envAllEmptyPage : Env Nat :=
  { rasterize := fun _ _ => Except.ok [0],
    recognize := fun _ => Except.ok "",
    writeCrash := fun _ => none }

/-- One page of text, but every write raises after 1 byte. -/
def envCrashWrite : Env Nat :=
  { rasterize := fun _ _ => Except.ok [0],
    recognize := fun _ => Except.ok ("T"),
    writeCrash := fun _ => some 1 }

/-- One page whose recognized text is itself a page-marker line. -/
def envFakeMarker : Env Nat :=
  { rasterize := fun _ _ => Except.ok [0],
    recognize := fun _ => Except.ok ("--- Page 2 ---"),
    writeCrash := fun _ => none }

/-- Rasterization yields zero pages. -/
def envZeroPages : Env Nat :=
  { rasterize := fun _ _ => Except.ok [],
    recognize := fun _ => Except.error ("unused"),
    writeCrash := fun _ => none }

/-- Two documents with different page images and different recognized
texts, keyed by path. -/
def envTwoDocs : Env Nat :=
  { rasterize := fun p _ =>
      if p = "in/a/doc.pdf" then Except.ok [0] else Except.ok [1],
    recognize := fun i => if i = 0 then Except.ok ("Alpha") else Except.ok ("Beta"),
    writeCrash := fun _ => none }

/-- A walk with two same-named documents in sibling subdirectories. -/
def walkDupNames : List (String × List String) :=
  [("in", []), ("in/a", ["doc.pdf"]), ("in/b", ["doc.pdf"])]

/-- A walk with two distinctly named documents. -/
def walkTwoFiles : List (String × List String) :=
  [("in", ["a.pdf", "b.pdf"])]

/-- Capabilities for the two distinctly named documents. -/
def envTwoFiles : Env Nat :=
  { rasterize := fun p _ =>
      if p = "in/a.pdf" then Except.ok [0] else Except.ok [1],
    recognize := fun i => if i = 0 then Except.ok ("Alpha") else Except.ok ("Beta"),
    writeCrash := fun _ => none }

/-! Helper lemmas about stripping. -/

theorem stripChars_eq (l : List Char) :
    stripChars l = List.rdropWhile pyWs (l.dropWhile pyWs) := rfl

theorem head?_of_append {α : Type} {l : List α} (t : List α) {c : α}
    (h : l.head? = some c) : (l ++ t).head? = some c := by
  cases l with
  | nil => simp at h
  | cons a r => simpa using h

theorem dropWhile_head?_not (p : Char → Bool) (l : List Char) {c : Char}
    (h : (l.dropWhile p).head? = some c) : p c = false := by
  induction l with
  | nil => simp [List.dropWhile] at h
  | cons a t ih =>
    rw [List.dropWhile_cons] at h
    by_cases hp : p a
    · rw [if_pos hp] at h; exact ih h
    · rw [if_neg hp] at h
      simp only [List.head?_cons, Option.some.injEq] at h
      rw [← h]
      exact Bool.eq_false_iff.mpr hp

theorem dropWhile_eq_self_of_head? (p : Char → Bool) (l : List Char)
    (h : ∀ c, l.head? = some c → p c = false) : l.dropWhile p = l := by
  cases l with
  | nil => rfl
  | cons a t =>
    rw [List.dropWhile_cons, if_neg]
    rw [h a rfl]
    simp

theorem stripChars_idem (l : List Char) :
    stripChars (stripChars l) = stripChars l := by
  simp only [stripChars_eq]
  have h1 : (List.rdropWhile pyWs (l.dropWhile pyWs)).dropWhile pyWs
      = List.rdropWhile pyWs (l.dropWhile pyWs) := by
    apply dropWhile_eq_self_of_head?
    intro c hc
    obtain ⟨t, ht⟩ := List.rdropWhile_prefix pyWs (l.dropWhile pyWs)
    have hx : (l.dropWhile pyWs).head? = some c := by
      rw [← ht]; exact head?_of_append t hc
    exact dropWhile_head?_not pyWs l hx
  rw [h1, List.rdropWhile_idempotent]

theorem stripChars_ne_nil {c : Char} (l : List Char) (h : pyWs c = false) :
    stripChars (c :: l) ≠ [] := by
  rw [stripChars_eq]
  rw [List.dropWhile_cons, if_neg (by simp [h])]
  intro hnil
  have hall := List.rdropWhile_eq_nil_iff.mp hnil
  have hc := hall c (List.mem_cons_self c l)
  rw [h] at hc
  exact Bool.false_ne_true hc

theorem pyStrip_idem (s : String) : pyStrip (pyStrip s) = pyStrip s := by
  simp [pyStrip, stripChars_idem]

theorem pyStrip_ne_empty {s : String} {c : Char} (h : s.data.head? = some c)
    (hc : pyWs c = false) : pyStrip s ≠ "" := by
  intro hcon
  have hdat : stripChars s.data = [] := by
    have := congrArg String.data hcon
    simpa [pyStrip] using this
  cases hd : s.data with
  | nil => rw [hd] at h; simp at h
  | cons a t =>
    rw [hd] at h
    simp only [List.head?_cons, Option.some.injEq] at h
    rw [hd] at hdat
    exact stripChars_ne_nil t (h ▸ hc) hdat

/-! Helper lemmas about page entries and the assembled text. -/

theorem pageEntry_head (n : Nat) (t : String) :
    (pageEntry n t).data.head? = some '-' := by
  unfold pageEntry
  split
  · rw [String.data_append, String.data_append, String.data_append]
    rfl
  · rw [String.data_append, String.data_append]
    rfl

theorem pyJoinNL_cons_data (s : String) (rest : List String) :
    ∃ r, (pyJoinNL (s :: rest)).data = s.data ++ r := by
  cases rest with
  | nil => exact ⟨[], by simp [pyJoinNL]⟩
  | cons t ts =>
    refine ⟨("\n").data ++ (pyJoinNL (t :: ts)).data, ?_⟩
    show (s ++ "\n" ++ pyJoinNL (t :: ts)).data = _
    rw [String.data_append, String.data_append, List.append_assoc]

theorem pageEntries_length {Img : Type} (env : Env Img) :
    ∀ (imgs : List Img) (n : Nat), (pageEntries env n imgs).length = imgs.length := by
  intro imgs
  induction imgs with
  | nil => intro n; rfl
  | cons i rest ih => intro n; simp [pageEntries, ih]

theorem pageEntries_all_empty {Img : Type} (env : Env Img) :
    ∀ (imgs : List Img) (n : Nat),
    (∀ img ∈ imgs, extract_text_from_image (env.recognize img) = "") →
    pageEntries env n imgs = (List.range' n imgs.length).map
      (fun k => "--- Page " ++ toString k ++ " ---\n[No text extracted]\n") := by
  intro imgs
  induction imgs with
  | nil => intro n _; rfl
  | cons i rest ih =>
    intro n h
    have hi := h i (List.mem_cons_self i rest)
    have hrest := ih (n + 1) (fun img hm => h img (List.mem_cons_of_mem i hm))
    simp only [pageEntries, List.length_cons]
    rw [hrest, hi, pageEntry, if_neg (by simp)]
    rw [show (List.range' n (rest.length + 1)) = n :: List.range' (n + 1) rest.length
      from List.range'_succ n rest.length 1]
    rw [List.map_cons]

theorem assembled_strip_ne_empty {Img : Type} (env : Env Img) (imgs : List Img)
    (h2 : imgs ≠ []) : pyStrip (pyJoinNL (pageEntries env 1 imgs)) ≠ "" := by
  cases imgs with
  | nil => exact absurd rfl h2
  | cons i rest =>
    obtain ⟨r, hr⟩ := pyJoinNL_cons_data
      (pageEntry 1 (extract_text_from_image (env.recognize i)))
      (pageEntries env 2 rest)
    apply pyStrip_ne_empty (c := '-')
    · show (pyJoinNL (pageEntries env 1 (i :: rest))).data.head? = some '-'
      have : pageEntries env 1 (i :: rest)
          = pageEntry 1 (extract_text_from_image (env.recognize i))
            :: pageEntries env 2 rest := rfl
      rw [this, hr]
      exact head?_of_append r (pageEntry_head 1 _)
    · rfl

/-! Helper lemmas about the batch loop. -/

theorem runDocs_length {Img : Type} (env : Env Img) (outd : String) (dpi : Nat) :
    ∀ (l : List String) (fs : Fs), ((runDocs env outd dpi fs l).1).length = l.length := by
  intro l
  induction l with
  | nil => intro fs; rfl
  | cons p rest ih => intro fs; simp [runDocs, ih]

theorem foldl_foldStep (outs : List (Bool × String × String)) :
    ∀ s : Stats, outs.foldl foldStep s =
      { total := s.total,
        successful := s.successful + outs.countP (fun o => o.1),
        failed := s.failed + outs.countP (fun o => !o.1),
        errors := s.errors ++ (outs.filter (fun o => !o.1)).map errEntry } := by
  induction outs with
  | nil => intro s; simp
  | cons o rest ih =>
    intro s
    rw [List.foldl_cons, ih]
    by_cases ho : o.1
    · simp [foldStep, ho, List.countP_cons, List.filter_cons, Nat.add_assoc, Nat.add_comm 1]
    · simp only [Bool.not_eq_true] at ho
      simp [foldStep, ho, List.countP_cons, List.filter_cons, Nat.add_assoc, Nat.add_comm 1]

theorem foldStats_eq (total : Nat) (outs : List (Bool × String × String)) :
    foldStats total outs =
      { total := total,
        successful := outs.countP (fun o => o.1),
        failed := outs.countP (fun o => !o.1),
        errors := (outs.filter (fun o => !o.1)).map errEntry } := by
  rw [foldStats, foldl_foldStep]
  simp

/-! Claim theorems. -/

/-- C7: the page recognizer never raises — on any internal failure
(preprocessing or engine error, the `recognized` argument being
`Except.error`) `extract_text_from_image` returns the empty string, so the
document loop still produces one entry per page (a single page failure is
never fatal); on success the returned text is `text.strip()`, hence
stripped of leading and trailing whitespace (stripping is idempotent on
it). -/
theorem C7_page_recognizer :
    (∀ e : String, extract_text_from_image (Except.error e) = "")
    ∧ (∀ t : String, extract_text_from_image (Except.ok t) = pyStrip t)
    ∧ (∀ r : Except String String,
        pyStrip (extract_text_from_image r) = extract_text_from_image r)
    ∧ (∀ (Img : Type) (env : Env Img) (n : Nat) (imgs : List Img),
        (pageEntries env n imgs).length = imgs.length) := by
  refine ⟨fun e => rfl, fun t => rfl, ?_, ?_⟩
  · intro r
    cases r with
    | error e => rfl
    | ok t => exact pyStrip_idem t
  · intro Img env n imgs
    exact pageEntries_length env imgs n

/-- C10: for every non-empty `dpi_list`, `batch_ocr_processing` evaluates
the unbound name `logger` at the start of the first loop iteration — it is
neither a local of the function nor bound at module scope — so the call
raises `NameError` before `ocr_pdfs_to_text` is ever invoked and no
document is processed, for every environment and input. -/
theorem C10_batch_name_error {Img : Type} (env : Env Img) (sched : Sched)
    (fs : Fs) (walk : List (String × List String)) (outbase : String)
    (dpi_list : List Nat) (h : dpi_list ≠ []) :
    batch_ocr_processing env sched fs walk outbase dpi_list
      = Except.error ("NameError: name logger is not defined") := by
  cases dpi_list with
  | nil => exact absurd rfl h
  | cons d rest => rfl

/-- C10 witness: with the source's default `dpi_list = [200, 300, 400]`
(non-empty), the multi-DPI batch utility fails with the `NameError`. -/
theorem C10_batch_name_error_witness :
    batch_ocr_processing envZeroPages schedId fsEmpty [] "outbase" [200, 300, 400]
      = Except.error ("NameError: name logger is not defined") :=
  C10_batch_name_error envZeroPages schedId fsEmpty [] "outbase" [200, 300, 400]
    (by decide)

/-! Unfolding lemmas for `process_single_pdf`. -/

theorem process_skip {Img : Type} (env : Env Img) (fs : Fs) (p outf : String)
    (dpi : Nat) (h : (fs (outFile p outf)).isSome = true) :
    process_single_pdf env fs p outf dpi = ((true, p, outFile p outf), fs) := by
  unfold process_single_pdf
  rw [if_pos h]

theorem process_convert {Img : Type} (env : Env Img) (fs : Fs) (p outf : String)
    (dpi : Nat) (h : fs (outFile p outf) = none) :
    process_single_pdf env fs p outf dpi =
      match convertResult env p outf dpi with
      | (r, none) => (r, fs)
      | (r, some c) => (r, Fs.update fs (outFile p outf) c) := by
  unfold process_single_pdf
  rw [if_neg (by rw [h]; simp)]

/-- C6 (amended): with no pre-existing output, a rasterization that yields
zero pages produces the failure triple with reason `"No images extracted"`
(capitalized, unlike the claimed `"no images extracted"`), a rasterization
error produces the failure triple carrying the underlying message, neither
writes anything, and a failure never aborts the processing of sibling
documents (the batch loop yields one outcome per submitted document,
whatever the outcomes are). -/
theorem C6_amended {Img : Type} (env : Env Img) (fs : Fs) (p outf : String)
    (dpi : Nat) (h0 : fs (outFile p outf) = none) :
    (env.rasterize p dpi = Except.ok [] →
      process_single_pdf env fs p outf dpi
        = ((false, p, "No images extracted"), fs))
    ∧ (∀ e, env.rasterize p dpi = Except.error e →
      process_single_pdf env fs p outf dpi = ((false, p, e), fs))
    ∧ (∀ (docs : List String) (fs0 : Fs),
        ((runDocs env outf dpi fs0 docs).1).length = docs.length) := by
  refine ⟨?_, ?_, ?_⟩
  · intro hr
    rw [process_convert env fs p outf dpi h0]
    simp [convertResult, hr]
  · intro e hr
    rw [process_convert env fs p outf dpi h0]
    simp [convertResult, hr]
  · intro docs fs0
    exact runDocs_length env outf dpi docs fs0

/-- C6 counterexample: on a document whose rasterization yields zero pages,
the failure reason produced by the code is `"No images extracted"`, not the
claimed `"no images extracted"`. -/
theorem C6_counterexample :
    (process_single_pdf envZeroPages fsEmpty "in/d.pdf" "out" 300).1
      = (false, "in/d.pdf", "No images extracted")
    ∧ (process_single_pdf envZeroPages fsEmpty "in/d.pdf" "out" 300).1.2.2
      ≠ "no images extracted" := by decide

/-- C6 witness: the amended statement applied to a concrete zero-page
document with an empty output directory. -/
theorem C6_amended_witness :
    process_single_pdf envZeroPages fsEmpty "in/d.pdf" "out" 300
      = ((false, "in/d.pdf", "No images extracted"), fsEmpty) :=
  (C6_amended envZeroPages fsEmpty "in/d.pdf" "out" 300 rfl).1 rfl

/-- C1 (amended): a document with at least one page, all of whose pages
recognize to empty text, does NOT fail: every page contributes a
`--- Page N ---` marker followed by the literal `[No text extracted]`, so
the concatenated text is never whitespace-only, the
`Failure("No text extracted")` branch is not taken, and (absent a write
error) the artifact IS written and the outcome is success. -/
theorem C1_amended {Img : Type} (env : Env Img) (fs : Fs) (p outf : String)
    (dpi : Nat) (imgs : List Img)
    (h0 : fs (outFile p outf) = none)
    (h1 : env.rasterize p dpi = Except.ok imgs)
    (h2 : imgs ≠ [])
    (h3 : env.writeCrash (outFile p outf) = none)
    (hempty : ∀ img ∈ imgs, extract_text_from_image (env.recognize img) = "") :
    process_single_pdf env fs p outf dpi
      = ((true, p, outFile p outf),
         Fs.update fs (outFile p outf) (pyJoinNL (pageEntries env 1 imgs)))
    ∧ pageEntries env 1 imgs
      = (List.range' 1 imgs.length).map
          (fun k => "--- Page " ++ toString k ++ " ---\n[No text extracted]\n") := by
  constructor
  · rw [process_convert env fs p outf dpi h0]
    have hs := assembled_strip_ne_empty env imgs h2
    simp only [convertResult, h1, h3]
    rw [if_neg (by simp [List.isEmpty_iff, h2])]
    rw [if_neg hs]
  · exact pageEntries_all_empty env imgs 1 hempty

/-- C1 counterexample: a one-page document whose single page recognizes to
empty text returns a success outcome and writes the
`--- Page 1 ---` / `[No text extracted]` artifact, contradicting the
claimed `Failure("no text extracted")`-and-no-write behavior. -/
theorem C1_counterexample :
    extract_text_from_image (envAllEmptyPage.recognize 0) = ""
    ∧ (process_single_pdf envAllEmptyPage fsEmpty "in/d.pdf" "out" 300).1.1 = true
    ∧ (process_single_pdf envAllEmptyPage fsEmpty "in/d.pdf" "out" 300).2 "out/d.txt"
      = some ("--- Page 1 ---\n[No text extracted]\n") := by decide

/-- C1 witness: the amended statement applied to a concrete one-page
document whose page recognizes to empty text. -/
theorem C1_amended_witness :
    process_single_pdf envAllEmptyPage fsEmpty "in/d.pdf" "out" 300
      = ((true, "in/d.pdf", outFile "in/d.pdf" "out"),
         Fs.update fsEmpty (outFile "in/d.pdf" "out")
           (pyJoinNL (pageEntries envAllEmptyPage 1 [0])))
    ∧ pageEntries envAllEmptyPage 1 [0]
      = (List.range' 1 (List.length [0])).map
          (fun k => "--- Page " ++ toString k ++ " ---\n[No text extracted]\n") :=
  C1_amended envAllEmptyPage fsEmpty "in/d.pdf" "out" 300 [0] rfl rfl (by decide)
    rfl (fun img _ => rfl)

/-- The output directory is changed only when the resume check found no
existing file, rasterization returned at least one page, and the assembled
text is not whitespace-only — i.e. only when the source reaches its write
step. -/
theorem process_write_conditions {Img : Type} (env : Env Img) (fs : Fs)
    (p outf : String) (dpi : Nat) :
    (process_single_pdf env fs p outf dpi).2 = fs ∨
    (fs (outFile p outf) = none
      ∧ ∃ imgs, env.rasterize p dpi = Except.ok imgs ∧ imgs ≠ []
        ∧ pyStrip (pyJoinNL (pageEntries env 1 imgs)) ≠ "") := by
  by_cases hex : (fs (outFile p outf)).isSome
  · left
    rw [process_skip env fs p outf dpi hex]
  · have h0 : fs (outFile p outf) = none := Option.not_isSome_iff_eq_none.mp hex
    rw [process_convert env fs p outf dpi h0]
    cases hr : env.rasterize p dpi with
    | error e => left; simp [convertResult, hr]
    | ok imgs =>
      cases imgs with
      | nil => left; simp [convertResult, hr]
      | cons i rest =>
        by_cases hstrip : pyStrip (pyJoinNL (pageEntries env 1 (i :: rest))) = ""
        · left
          simp only [convertResult, hr]
          rw [if_neg (by simp), if_pos hstrip]
        · right
          exact ⟨h0, i :: rest, rfl, List.cons_ne_nil i rest, hstrip⟩

/-- C2 (amended): the write step is reached only on the success path (no
pre-existing artifact, at least one rasterized page, non-whitespace
assembled text) — so no artifact is ever written for a document that fails
before assembly — but the write itself is a direct, non-atomic
`open(path, "w").write(...)` to the final path: if the write raises after
`k` bytes the outcome is a Failure while a partial artifact holding the
first `k` bytes remains at the output path (there is no write-then-rename
step in the source). -/
theorem C2_amended {Img : Type} (env : Env Img) (fs : Fs) (p outf : String)
    (dpi : Nat) :
    ((process_single_pdf env fs p outf dpi).2 ≠ fs →
      fs (outFile p outf) = none
      ∧ ∃ imgs, env.rasterize p dpi = Except.ok imgs ∧ imgs ≠ []
          ∧ pyStrip (pyJoinNL (pageEntries env 1 imgs)) ≠ "")
    ∧ (∀ (k : Nat) (imgs : List Img),
        fs (outFile p outf) = none →
        env.rasterize p dpi = Except.ok imgs →
        imgs ≠ [] →
        pyStrip (pyJoinNL (pageEntries env 1 imgs)) ≠ "" →
        env.writeCrash (outFile p outf) = some k →
        process_single_pdf env fs p outf dpi
          = ((false, p, "write error"),
             Fs.update fs (outFile p outf)
               (String.mk ((pyJoinNL (pageEntries env 1 imgs)).data.take k)))) := by
  constructor
  · intro hne
    exact (process_write_conditions env fs p outf dpi).resolve_left hne
  · intro k imgs h0 h1 h2 hstrip hw
    rw [process_convert env fs p outf dpi h0]
    simp only [convertResult, h1, hw]
    rw [if_neg (by simp [List.isEmpty_iff, h2])]
    rw [if_neg hstrip]

/-- C2 counterexample: a write interrupted after one byte yields a Failure
outcome while leaving a one-byte partial artifact (not the full
`--- Page 1 ---` text) at the output path — a partial file IS left behind
for a document whose outcome is Failure, because the write is not
write-then-rename. -/
theorem C2_counterexample :
    (process_single_pdf envCrashWrite fsEmpty "in/d.pdf" "out" 300).1.1 = false
    ∧ (process_single_pdf envCrashWrite fsEmpty "in/d.pdf" "out" 300).2 "out/d.txt"
      = some ("-")
    ∧ (some ("-") : Option String) ≠ some ("--- Page 1 ---\nT\n") := by decide

/-- C2 witness: the amended statement applied to a concrete document whose
write is interrupted after one byte. -/
theorem C2_amended_witness :
    (fsEmpty (outFile "in/d.pdf" "out") = none
      ∧ ∃ imgs, envCrashWrite.rasterize "in/d.pdf" 300 = Except.ok imgs ∧ imgs ≠ []
          ∧ pyStrip (pyJoinNL (pageEntries envCrashWrite 1 imgs)) ≠ "")
    ∧ process_single_pdf envCrashWrite fsEmpty "in/d.pdf" "out" 300
      = ((false, "in/d.pdf", "write error"),
         Fs.update fsEmpty (outFile "in/d.pdf" "out")
           (String.mk ((pyJoinNL (pageEntries envCrashWrite 1 [0])).data.take 1))) :=
  ⟨(C2_amended envCrashWrite fsEmpty "in/d.pdf" "out" 300).1
      (fun h => absurd (congrFun h "out/d.txt") (by decide)),
   (C2_amended envCrashWrite fsEmpty "in/d.pdf" "out" 300).2 1 [0] rfl rfl
      (by decide) (by decide) rfl⟩

/-! Counting lemmas for the statistics fold. -/

theorem countP_split (l : List (Bool × String × String)) :
    l.countP (fun o => o.1) + l.countP (fun o => !o.1) = l.length := by
  induction l with
  | nil => rfl
  | cons o t ih =>
    rw [List.countP_cons, List.countP_cons, List.length_cons, ← ih]
    cases ho : o.1 <;> simp [ho] <;> omega

theorem countP_filter_not (l : List (Bool × String × String)) :
    (l.filter (fun o => !o.1)).length = l.countP (fun o => !o.1) := by
  induction l with
  | nil => rfl
  | cons o t ih =>
    rw [List.countP_cons, List.filter_cons]
    cases ho : o.1 <;> simp [ho, ih]

/-- C3: for every corpus, environment, schedule and worker setting, the
batch returns a complete statistics value (it is a total function — every
per-document exception is absorbed into a `false` outcome, never
propagated) in which `total` is the number of discovered documents,
`successful + failed = total`, and the error list has exactly `failed`
entries. -/
theorem C3_completeness {Img : Type} (env : Env Img) (sched : Sched) (fs : Fs)
    (walk : List (String × List String)) (outf : String) (dpi : Nat)
    (mw : Option Int) :
    (ocr_pdfs_to_text env sched fs walk outf dpi mw).1.total
      = (findPdfFiles walk).length
    ∧ (ocr_pdfs_to_text env sched fs walk outf dpi mw).1.successful
        + (ocr_pdfs_to_text env sched fs walk outf dpi mw).1.failed
      = (ocr_pdfs_to_text env sched fs walk outf dpi mw).1.total
    ∧ ((ocr_pdfs_to_text env sched fs walk outf dpi mw).1.errors).length
      = (ocr_pdfs_to_text env sched fs walk outf dpi mw).1.failed := by
  by_cases hpdf : findPdfFiles walk = []
  · simp [ocr_pdfs_to_text, hpdf]
  · have hlist : (findPdfFiles walk).isEmpty = false := by
      simp [List.isEmpty_iff, hpdf]
    have horder : (if usesParallel mw then sched.perm (findPdfFiles walk)
        else findPdfFiles walk).length = (findPdfFiles walk).length := by
      split
      · exact (sched.is_perm (findPdfFiles walk)).length_eq
      · rfl
    simp only [ocr_pdfs_to_text, hlist, Bool.false_eq_true, if_false, foldStats_eq]
    refine ⟨trivial, ?_, ?_⟩
    · rw [countP_split, runDocs_length, horder]
    · rw [List.length_map, countP_filter_not]

theorem hasFile_to_mem {t : DirTree} {root d f : String}
    (h : HasFile t root d f) : ∃ e ∈ osWalk root t, e.1 = d ∧ f ∈ e.2 := by
  induction h with
  | here hf =>
    rename_i files subdirs root f
    refine ⟨(root, files), ?_, rfl, hf⟩
    rw [osWalk]
    exact List.mem_cons_self _ _
  | there sd hsd hrec ih =>
    rename_i files subdirs root d f
    obtain ⟨e, he, hd, hf⟩ := ih
    refine ⟨e, ?_, hd, hf⟩
    rw [osWalk]
    apply List.mem_cons_of_mem
    exact List.mem_flatMap.mpr ⟨⟨sd, hsd⟩, List.mem_attach _ _, he⟩

theorem mem_to_hasFile (t : DirTree) (root d f : String)
    (h : ∃ e ∈ osWalk root t, e.1 = d ∧ f ∈ e.2) : HasFile t root d f := by
  match t with
  | DirTree.node files subdirs =>
    obtain ⟨e, he, hd, hf⟩ := h
    rw [osWalk] at he
    rcases List.mem_cons.mp he with heq | hmem
    · subst heq
      cases hd
      exact HasFile.here hf
    · obtain ⟨sd, _, he2⟩ := List.mem_flatMap.mp hmem
      exact HasFile.there sd.1 sd.2
        (mem_to_hasFile sd.1.2 (pyJoin root sd.1.1) d f ⟨e, he2, hd, hf⟩)
termination_by sizeOf t
decreasing_by
  obtain ⟨⟨n, u⟩, hmem⟩ := sd
  have h1 := List.sizeOf_lt_of_mem hmem
  simp at h1 ⊢
  omega

/-- A file is reachable by the recursive tree predicate `HasFile` exactly
when `os.walk` yields its directory together with it. -/
theorem hasFile_iff (t : DirTree) (root d f : String) :
    HasFile t root d f ↔ ∃ e ∈ osWalk root t, e.1 = d ∧ f ∈ e.2 :=
  ⟨hasFile_to_mem, mem_to_hasFile t root d f⟩

/-- C9: discovery returns exactly the recursively reachable files whose
lowercased name ends in `.pdf`, joined to their directory path; a
non-existent root and an empty root both yield the empty sequence rather
than an error; and a batch that discovers no documents returns zeroed
statistics immediately, leaving the output directory untouched. -/
theorem C9_discovery :
    (∀ (t : DirTree) (root p : String),
      p ∈ findPdfFiles (osWalkOpt root (some t)) ↔
        ∃ d f, HasFile t root d f
          ∧ List.isSuffixOf (".pdf").data (pyLower f).data = true
          ∧ p = pyJoin d f)
    ∧ (∀ root : String, findPdfFiles (osWalkOpt root none) = [])
    ∧ (∀ root : String,
        findPdfFiles (osWalkOpt root (some (DirTree.node [] []))) = [])
    ∧ (∀ (Img : Type) (env : Env Img) (sched : Sched) (fs : Fs)
        (walk : List (String × List String)) (outf : String) (dpi : Nat)
        (mw : Option Int), findPdfFiles walk = [] →
        ocr_pdfs_to_text env sched fs walk outf dpi mw
          = ({ total := 0, successful := 0, failed := 0, errors := [] }, fs)) := by
  refine ⟨?_, fun root => rfl, ?_, ?_⟩
  · intro t root p
    show p ∈ findPdfFiles (osWalk root t) ↔ _
    constructor
    · intro hp
      obtain ⟨e, he, hpe⟩ := List.mem_flatMap.mp hp
      obtain ⟨f, hf, hpf⟩ := List.mem_map.mp hpe
      obtain ⟨hf2, hsuf⟩ := List.mem_filter.mp hf
      exact ⟨e.1, f, (hasFile_iff t root e.1 f).mpr ⟨e, he, rfl, hf2⟩, hsuf,
        hpf.symm⟩
    · rintro ⟨d, f, hhf, hsuf, hp⟩
      obtain ⟨e, he, hd, hf⟩ := (hasFile_iff t root d f).mp hhf
      apply List.mem_flatMap.mpr
      refine ⟨e, he, ?_⟩
      apply List.mem_map.mpr
      refine ⟨f, List.mem_filter.mpr ⟨hf, hsuf⟩, ?_⟩
      rw [hp, hd]
  · intro root
    simp [findPdfFiles, osWalkOpt, osWalk]
  · intro Img env sched fs walk outf dpi mw h
    simp [ocr_pdfs_to_text, h]

/-- C9 witness: a corpus with no discovered documents makes the batch
return zeroed statistics and an unchanged output directory. -/
theorem C9_discovery_witness :
    ocr_pdfs_to_text envZeroPages schedId fsEmpty [] "out" 300 none
      = ({ total := 0, successful := 0, failed := 0, errors := [] }, fsEmpty) :=
  C9_discovery.2.2.2 Nat envZeroPages schedId fsEmpty [] "out" 300 none rfl

/-! Locality and monotonicity of the per-document step. -/

theorem process_fs_other {Img : Type} (env : Env Img) (fs : Fs) (p outf : String)
    (dpi : Nat) {q : String} (hq : q ≠ outFile p outf) :
    ((process_single_pdf env fs p outf dpi).2) q = fs q := by
  by_cases hex : (fs (outFile p outf)).isSome
  · rw [process_skip env fs p outf dpi hex]
  · rw [process_convert env fs p outf dpi (Option.not_isSome_iff_eq_none.mp hex)]
    cases hcv : convertResult env p outf dpi with
    | mk r w =>
      cases w with
      | none => rfl
      | some c =>
        show Fs.update fs (outFile p outf) c q = fs q
        rw [Fs.update, if_neg hq]

theorem process_mono {Img : Type} (env : Env Img) (fs : Fs) (p outf : String)
    (dpi : Nat) (q : String) (h : (fs q).isSome = true) :
    (((process_single_pdf env fs p outf dpi).2) q).isSome = true := by
  by_cases hq : q = outFile p outf
  · subst hq
    by_cases hex : (fs (outFile p outf)).isSome
    · rw [process_skip env fs p outf dpi hex]; exact h
    · exact absurd h hex
  · rw [process_fs_other env fs p outf dpi hq]; exact h

/-- A `true` outcome of the conversion core can only come from the
completed-write branch, which returns a written content. -/
theorem convertResult_true {Img : Type} (env : Env Img) (p outf : String)
    (dpi : Nat) (h : (convertResult env p outf dpi).1.1 = true) :
    ∃ c, (convertResult env p outf dpi).2 = some c := by
  simp only [convertResult] at h ⊢
  split at h
  · simp at h
  · rename_i images heq
    by_cases he : images.isEmpty = true
    · rw [if_pos he] at h; simp at h
    · rw [if_neg he] at h ⊢
      by_cases hs : pyStrip (pyJoinNL (pageEntries env 1 images)) = ""
      · rw [if_pos hs] at h; simp at h
      · rw [if_neg hs] at h ⊢
        split at h
        · exact ⟨_, rfl⟩
        · simp at h

theorem process_true_some {Img : Type} (env : Env Img) (fs : Fs)
    (p outf : String) (dpi : Nat)
    (h : (process_single_pdf env fs p outf dpi).1.1 = true) :
    (((process_single_pdf env fs p outf dpi).2) (outFile p outf)).isSome = true := by
  by_cases hex : (fs (outFile p outf)).isSome
  · rw [process_skip env fs p outf dpi hex]; exact hex
  · have h0 := Option.not_isSome_iff_eq_none.mp hex
    rw [process_convert env fs p outf dpi h0] at h ⊢
    cases hcv : convertResult env p outf dpi with
    | mk r w =>
      rw [hcv] at h
      cases w with
      | none =>
        have h1 : r.1 = true := h
        obtain ⟨c, hc⟩ := convertResult_true env p outf dpi (by rw [hcv]; exact h1)
        rw [hcv] at hc
        cases hc
      | some c =>
        show ((Fs.update fs (outFile p outf) c) (outFile p outf)).isSome = true
        rw [Fs.update, if_pos rfl]
        rfl

theorem runDocs_mono {Img : Type} (env : Env Img) (outf : String) (dpi : Nat) :
    ∀ (l : List String) (fs : Fs) (q : String), (fs q).isSome = true →
      (((runDocs env outf dpi fs l).2) q).isSome = true := by
  intro l
  induction l with
  | nil => intro fs q h; exact h
  | cons p rest ih =>
    intro fs q h
    exact ih (process_single_pdf env fs p outf dpi).2 q
      (process_mono env fs p outf dpi q h)

/-- Every document whose outcome is `true` has an artifact present at its
output path when the batch loop finishes. -/
theorem runDocs_success_isSome {Img : Type} (env : Env Img) (outf : String)
    (dpi : Nat) :
    ∀ (l : List String) (fs : Fs),
      ∀ pr ∈ l.zip (runDocs env outf dpi fs l).1, pr.2.1 = true →
        (((runDocs env outf dpi fs l).2) (outFile pr.1 outf)).isSome = true := by
  intro l
  induction l with
  | nil => intro fs pr hpr _; simp [runDocs] at hpr
  | cons p rest ih =>
    intro fs pr hpr htrue
    rcases List.mem_cons.mp hpr with heq | hmem
    · subst heq
      exact runDocs_mono env outf dpi rest _ _
        (process_true_some env fs p outf dpi htrue)
    · exact ih (process_single_pdf env fs p outf dpi).2 pr hmem htrue

/-- If a document's output path holds no artifact at the end of a batch
run, the path held none at the start and the document's conversion writes
nothing. -/
theorem runDocs_none_noWrite {Img : Type} (env : Env Img) (outf : String)
    (dpi : Nat) :
    ∀ (l : List String) (fs : Fs) (p : String), p ∈ l →
      (((runDocs env outf dpi fs l).2) (outFile p outf)).isSome = false →
      fs (outFile p outf) = none ∧ (convertResult env p outf dpi).2 = none := by
  intro l
  induction l with
  | nil => intro fs p hp; cases hp
  | cons x rest ih =>
    intro fs p hp hfin
    have hfin' : (((runDocs env outf dpi
        (process_single_pdf env fs x outf dpi).2 rest).2)
        (outFile p outf)).isSome = false := hfin
    have hfs : fs (outFile p outf) = none := by
      cases hv : fs (outFile p outf) with
      | none => rfl
      | some c =>
        have hsome : (fs (outFile p outf)).isSome = true := by rw [hv]; rfl
        have h2 := runDocs_mono env outf dpi rest _ _
          (process_mono env fs x outf dpi _ hsome)
        rw [h2] at hfin'
        cases hfin'
    rcases List.mem_cons.mp hp with heq | hmem
    · subst heq
      refine ⟨hfs, ?_⟩
      cases hcv : (convertResult env p outf dpi).2 with
      | none => rfl
      | some c =>
        have hup : ((process_single_pdf env fs p outf dpi).2
            (outFile p outf)).isSome = true := by
          rw [process_convert env fs p outf dpi hfs]
          cases hcv2 : convertResult env p outf dpi with
          | mk r w =>
            have hw : w = some c := by rw [hcv2] at hcv; exact hcv
            subst hw
            show ((Fs.update fs (outFile p outf) c) (outFile p outf)).isSome = true
            rw [Fs.update, if_pos rfl]
            rfl
        have h2 := runDocs_mono env outf dpi rest _ _ hup
        rw [h2] at hfin'
        cases hfin'
    · exact ⟨hfs, (ih (process_single_pdf env fs x outf dpi).2 p hmem hfin').2⟩

/-- A batch run over documents each of which either already has an
artifact or whose conversion writes nothing leaves the output directory
unchanged, and reports every already-covered document with the skip
outcome. -/
theorem runDocs_stable {Img : Type} (env : Env Img) (outf : String) (dpi : Nat) :
    ∀ (l : List String) (fs : Fs),
      (∀ p ∈ l, (fs (outFile p outf)).isSome = true
        ∨ (convertResult env p outf dpi).2 = none) →
      (runDocs env outf dpi fs l).2 = fs
      ∧ ∀ pr ∈ l.zip (runDocs env outf dpi fs l).1,
          (fs (outFile pr.1 outf)).isSome = true →
          pr.2 = (true, pr.1, outFile pr.1 outf) := by
  intro l
  induction l with
  | nil =>
    intro fs _
    exact ⟨rfl, by intro pr hpr; simp [runDocs] at hpr⟩
  | cons x rest ih =>
    intro fs h
    have hstep : (process_single_pdf env fs x outf dpi).2 = fs := by
      by_cases hex : (fs (outFile x outf)).isSome
      · rw [process_skip env fs x outf dpi hex]
      · rcases h x (List.mem_cons_self x rest) with hs | hw
        · exact absurd hs hex
        · rw [process_convert env fs x outf dpi
            (Option.not_isSome_iff_eq_none.mp hex)]
          cases hcv : convertResult env x outf dpi with
          | mk r w =>
            have hw2 : w = none := by rw [hcv] at hw; exact hw
            subst hw2
            rfl
    obtain ⟨ihfs, ihpr⟩ := ih fs (fun p hp => h p (List.mem_cons_of_mem x hp))
    constructor
    · show (runDocs env outf dpi (process_single_pdf env fs x outf dpi).2
        rest).2 = fs
      rw [hstep]
      exact ihfs
    · intro pr hpr htrue
      rcases List.mem_cons.mp hpr with heq | hmem
      · subst heq
        show (process_single_pdf env fs x outf dpi).1 = _
        have hex : (fs (outFile x outf)).isSome = true := htrue
        rw [process_skip env fs x outf dpi hex]
      · have hmem' : pr ∈ rest.zip (runDocs env outf dpi fs rest).1 := by
          have : pr ∈ rest.zip (runDocs env outf dpi
              (process_single_pdf env fs x outf dpi).2 rest).1 := hmem
          rw [hstep] at this
          exact this
        exact ihpr pr hmem' htrue

/-- C5: resume/idempotence.  (i) A document whose expected output file
already exists returns the success triple `(True, path, output path)`
immediately and leaves the store untouched, for EVERY capability
environment — it consults neither rasterization, nor recognition, nor the
writer (the source returns before any of them; in the model the result is
the same whatever `envX` is).  (ii) Running the whole batch a second time
on the first run's output changes no artifact.  (iii) At the
document-loop level, a second pass over the same processing order leaves
the store unchanged; every document whose first-pass outcome was `true`
has an artifact at its output path afterwards, and every document covered
by an artifact is reported on the second pass with exactly the skip
triple.  (iv) A `true` outcome — and the skip triple is one — increments
the `successful` counter when folded into the statistics. -/
theorem C5_resume_idempotent {Img : Type} (env : Env Img) (sched : Sched)
    (fs0 : Fs) (walk : List (String × List String)) (outf : String)
    (dpi : Nat) (mw : Option Int) :
    (∀ (fsX : Fs) (p : String) (envX : Env Img),
        (fsX (outFile p outf)).isSome = true →
        process_single_pdf envX fsX p outf dpi
          = ((true, p, outFile p outf), fsX))
    ∧ (ocr_pdfs_to_text env sched
        ((ocr_pdfs_to_text env sched fs0 walk outf dpi mw).2) walk outf dpi mw).2
      = (ocr_pdfs_to_text env sched fs0 walk outf dpi mw).2
    ∧ (∀ (order : List String),
        (runDocs env outf dpi (runDocs env outf dpi fs0 order).2 order).2
          = (runDocs env outf dpi fs0 order).2
        ∧ (∀ pr ∈ order.zip (runDocs env outf dpi fs0 order).1,
            pr.2.1 = true →
            (((runDocs env outf dpi fs0 order).2) (outFile pr.1 outf)).isSome
              = true)
        ∧ (∀ pr ∈ order.zip
              (runDocs env outf dpi (runDocs env outf dpi fs0 order).2 order).1,
            (((runDocs env outf dpi fs0 order).2) (outFile pr.1 outf)).isSome
              = true →
            pr.2 = (true, pr.1, outFile pr.1 outf)))
    ∧ (∀ (total : Nat) (outs : List (Bool × String × String))
        (o : Bool × String × String), o.1 = true →
        (foldStats total (outs ++ [o])).successful
          = (foldStats total outs).successful + 1) := by
  have hstable : ∀ (order : List String) (fs1 : Fs),
      (∀ p ∈ order, (fs1 (outFile p outf)).isSome = false →
        (convertResult env p outf dpi).2 = none) →
      (runDocs env outf dpi fs1 order).2 = fs1
      ∧ ∀ pr ∈ order.zip (runDocs env outf dpi fs1 order).1,
          (fs1 (outFile pr.1 outf)).isSome = true →
          pr.2 = (true, pr.1, outFile pr.1 outf) := by
    intro order fs1 hcond
    apply runDocs_stable env outf dpi order fs1
    intro p hp
    cases hv : (fs1 (outFile p outf)).isSome with
    | true => exact Or.inl rfl
    | false => exact Or.inr (hcond p hp hv)
  have hrun2 : ∀ (order : List String),
      (runDocs env outf dpi (runDocs env outf dpi fs0 order).2 order).2
        = (runDocs env outf dpi fs0 order).2
      ∧ ∀ pr ∈ order.zip
          (runDocs env outf dpi (runDocs env outf dpi fs0 order).2 order).1,
          (((runDocs env outf dpi fs0 order).2) (outFile pr.1 outf)).isSome
            = true →
          pr.2 = (true, pr.1, outFile pr.1 outf) := by
    intro order
    exact hstable order (runDocs env outf dpi fs0 order).2
      (fun p hp hnone =>
        (runDocs_none_noWrite env outf dpi order fs0 p hp hnone).2)
  refine ⟨?_, ?_, ?_, ?_⟩
  · intro fsX p envX hex
    exact process_skip envX fsX p outf dpi hex
  · by_cases hpdf : findPdfFiles walk = []
    · simp [ocr_pdfs_to_text, hpdf]
    · have hlist : (findPdfFiles walk).isEmpty = false := by
        simp [List.isEmpty_iff, hpdf]
      simp only [ocr_pdfs_to_text, hlist, Bool.false_eq_true, if_false]
      exact (hrun2 _).1
  · intro order
    exact ⟨(hrun2 order).1,
      fun pr hpr htrue =>
        runDocs_success_isSome env outf dpi order fs0 pr hpr htrue,
      (hrun2 order).2⟩
  · intro total outs o ho
    rw [foldStats, foldStats, List.foldl_append]
    simp [foldStep, ho]

/-- C5 witness: with an artifact already present at every path, a concrete
document is skipped with the success triple and an untouched store; and a
concrete two-document second pass changes nothing. -/
theorem C5_resume_idempotent_witness :
    process_single_pdf envTwoFiles (fun _ => some ("x")) "in/a.pdf" "out" 300
      = ((true, "in/a.pdf", outFile "in/a.pdf" "out"), (fun _ => some ("x")))
    ∧ (runDocs envTwoFiles "out" 300
        (runDocs envTwoFiles "out" 300 fsEmpty ["in/a.pdf", "in/b.pdf"]).2
        ["in/a.pdf", "in/b.pdf"]).2
      = (runDocs envTwoFiles "out" 300 fsEmpty ["in/a.pdf", "in/b.pdf"]).2 :=
  ⟨(C5_resume_idempotent envTwoFiles schedId fsEmpty walkTwoFiles "out" 300
      none).1 (fun _ => some ("x")) "in/a.pdf" envTwoFiles rfl,
   ((C5_resume_idempotent envTwoFiles schedId fsEmpty walkTwoFiles "out" 300
      none).2.2.1 ["in/a.pdf", "in/b.pdf"]).1⟩

/-! Commutation of independent documents, for concurrency equivalence. -/

/-- The per-document step depends on the store only through the document's
own output path. -/
theorem process_outcome_congr {Img : Type} (env : Env Img) (fs1 fs2 : Fs)
    (p outf : String) (dpi : Nat)
    (heq : fs1 (outFile p outf) = fs2 (outFile p outf)) :
    (process_single_pdf env fs1 p outf dpi).1
      = (process_single_pdf env fs2 p outf dpi).1
    ∧ ((process_single_pdf env fs1 p outf dpi).2) (outFile p outf)
      = ((process_single_pdf env fs2 p outf dpi).2) (outFile p outf) := by
  by_cases hex : (fs1 (outFile p outf)).isSome
  · have hex2 : (fs2 (outFile p outf)).isSome = true := by rw [← heq]; exact hex
    rw [process_skip env fs1 p outf dpi hex, process_skip env fs2 p outf dpi hex2]
    exact ⟨rfl, heq⟩
  · have h1 : fs1 (outFile p outf) = none := Option.not_isSome_iff_eq_none.mp hex
    have h2 : fs2 (outFile p outf) = none := by rw [← heq]; exact h1
    rw [process_convert env fs1 p outf dpi h1, process_convert env fs2 p outf dpi h2]
    cases hcv : convertResult env p outf dpi with
    | mk r w =>
      cases w with
      | none => exact ⟨rfl, heq⟩
      | some c =>
        refine ⟨rfl, ?_⟩
        show Fs.update fs1 (outFile p outf) c (outFile p outf)
          = Fs.update fs2 (outFile p outf) c (outFile p outf)
        rw [Fs.update, Fs.update, if_pos rfl, if_pos rfl]

/-- Two documents with distinct output paths can be processed in either
order: each outcome is unchanged and the final store is identical. -/
theorem process_swap {Img : Type} (env : Env Img) (outf : String) (dpi : Nat)
    (x y : String) (hxy : outFile x outf ≠ outFile y outf) (fs : Fs) :
    ((process_single_pdf env (process_single_pdf env fs x outf dpi).2 y outf dpi).1
      = (process_single_pdf env fs y outf dpi).1)
    ∧ ((process_single_pdf env (process_single_pdf env fs y outf dpi).2 x outf dpi).1
      = (process_single_pdf env fs x outf dpi).1)
    ∧ (process_single_pdf env (process_single_pdf env fs x outf dpi).2 y outf dpi).2
      = (process_single_pdf env (process_single_pdf env fs y outf dpi).2 x outf dpi).2 := by
  have hyx : outFile y outf ≠ outFile x outf := fun h => hxy h.symm
  have hagy : ((process_single_pdf env fs x outf dpi).2) (outFile y outf)
      = fs (outFile y outf) := process_fs_other env fs x outf dpi hyx
  have hagx : ((process_single_pdf env fs y outf dpi).2) (outFile x outf)
      = fs (outFile x outf) := process_fs_other env fs y outf dpi hxy
  refine ⟨(process_outcome_congr env _ fs y outf dpi hagy).1,
    (process_outcome_congr env _ fs x outf dpi hagx).1, ?_⟩
  funext q
  by_cases hqx : q = outFile x outf
  · subst hqx
    rw [process_fs_other env _ y outf dpi hxy]
    rw [(process_outcome_congr env _ fs x outf dpi hagx).2]
  · by_cases hqy : q = outFile y outf
    · subst hqy
      rw [process_fs_other env _ x outf dpi hyx]
      rw [(process_outcome_congr env _ fs y outf dpi hagy).2]
    · rw [process_fs_other env _ y outf dpi hqy,
        process_fs_other env fs x outf dpi hqx,
        process_fs_other env _ x outf dpi hqx,
        process_fs_other env fs y outf dpi hqy]

/-- Processing a corpus with pairwise-distinct output paths in any
permuted order yields a permutation of the same outcomes and the same
final store. -/
theorem runDocs_perm {Img : Type} (env : Env Img) (outf : String) (dpi : Nat)
    {l1 l2 : List String} (hp : l1.Perm l2) :
    ∀ fs : Fs, (l1.map (fun p => outFile p outf)).Nodup →
      ((runDocs env outf dpi fs l1).1).Perm ((runDocs env outf dpi fs l2).1)
      ∧ (runDocs env outf dpi fs l1).2 = (runDocs env outf dpi fs l2).2 := by
  induction hp with
  | nil => intro fs _; exact ⟨List.Perm.refl _, rfl⟩
  | cons x h ih =>
    intro fs hnd
    rw [List.map_cons] at hnd
    obtain ⟨ihp, ihfs⟩ :=
      ih (process_single_pdf env fs x outf dpi).2 (List.Nodup.of_cons hnd)
    exact ⟨List.Perm.cons _ ihp, ihfs⟩
  | swap x y l =>
    intro fs hnd
    rw [List.map_cons, List.map_cons] at hnd
    have h1 := (List.nodup_cons.mp hnd).1
    have hxy : outFile y outf ≠ outFile x outf := by
      intro hc
      exact h1 (by rw [hc]; exact List.mem_cons_self _ _)
    obtain ⟨s1, s2, s3⟩ := process_swap env outf dpi y x hxy fs
    have eL : (runDocs env outf dpi fs (y :: x :: l))
        = ((process_single_pdf env fs y outf dpi).1
            :: (process_single_pdf env
                (process_single_pdf env fs y outf dpi).2 x outf dpi).1
            :: (runDocs env outf dpi
                (process_single_pdf env
                  (process_single_pdf env fs y outf dpi).2 x outf dpi).2 l).1,
           (runDocs env outf dpi
              (process_single_pdf env
                (process_single_pdf env fs y outf dpi).2 x outf dpi).2 l).2) :=
      rfl
    have eR : (runDocs env outf dpi fs (x :: y :: l))
        = ((process_single_pdf env fs x outf dpi).1
            :: (process_single_pdf env
                (process_single_pdf env fs x outf dpi).2 y outf dpi).1
            :: (runDocs env outf dpi
                (process_single_pdf env
                  (process_single_pdf env fs x outf dpi).2 y outf dpi).2 l).1,
           (runDocs env outf dpi
              (process_single_pdf env
                (process_single_pdf env fs x outf dpi).2 y outf dpi).2 l).2) :=
      rfl
    rw [eL, eR, s1, s2, s3]
    exact ⟨List.Perm.swap _ _ _, rfl⟩
  | trans h1 h2 ih1 ih2 =>
    intro fs hnd
    obtain ⟨p1, f1⟩ := ih1 fs hnd
    obtain ⟨p2, f2⟩ :=
      ih2 fs (((h1.map (fun p => outFile p outf)).nodup_iff).mp hnd)
    exact ⟨p1.trans p2, f1.trans f2⟩

/-- C8 (amended): provided the discovered documents have pairwise-distinct
output paths, a sequential run and a bounded-parallel run (any worker
count above 1, any completion order) produce identical counts, error lists
equal as multisets, and identical artifact contents; and the sequential
mode is selected exactly when `max_workers` is unset or at most 1.
Without the distinct-output-path proviso the equivalence fails (two
same-named documents in sibling directories race for one artifact). -/
theorem C8_concurrency_equiv {Img : Type} (env : Env Img) (sched : Sched)
    (fs : Fs) (walk : List (String × List String)) (outf : String)
    (dpi : Nat) (w : Int) (hw : 1 < w)
    (hnd : ((findPdfFiles walk).map (fun p => outFile p outf)).Nodup) :
    ((ocr_pdfs_to_text env sched fs walk outf dpi none).1.total
      = (ocr_pdfs_to_text env sched fs walk outf dpi (some w)).1.total)
    ∧ ((ocr_pdfs_to_text env sched fs walk outf dpi none).1.successful
      = (ocr_pdfs_to_text env sched fs walk outf dpi (some w)).1.successful)
    ∧ ((ocr_pdfs_to_text env sched fs walk outf dpi none).1.failed
      = (ocr_pdfs_to_text env sched fs walk outf dpi (some w)).1.failed)
    ∧ ((ocr_pdfs_to_text env sched fs walk outf dpi none).1.errors).Perm
        ((ocr_pdfs_to_text env sched fs walk outf dpi (some w)).1.errors)
    ∧ ((ocr_pdfs_to_text env sched fs walk outf dpi none).2
      = (ocr_pdfs_to_text env sched fs walk outf dpi (some w)).2)
    ∧ (∀ mw : Option Int, usesParallel mw = false ↔
        (mw = none ∨ ∃ v, mw = some v ∧ v ≤ 1)) := by
  have hmode : ∀ mw : Option Int, usesParallel mw = false ↔
      (mw = none ∨ ∃ v, mw = some v ∧ v ≤ 1) := by
    intro mw
    cases mw with
    | none => simp [usesParallel]
    | some v =>
      simp only [usesParallel, decide_eq_false_iff_not, not_and, ne_eq,
        not_not, Option.some.injEq, reduceCtorEq, false_or]
      constructor
      · intro hv
        refine ⟨v, rfl, ?_⟩
        by_cases h0 : v = 0
        · omega
        · have := hv h0
          omega
      · rintro ⟨v2, hv2, hle⟩ h0
        cases hv2
        omega
  by_cases hpdf : findPdfFiles walk = []
  · simp [ocr_pdfs_to_text, hpdf, hmode]
  · have hlist : (findPdfFiles walk).isEmpty = false := by
      simp [List.isEmpty_iff, hpdf]
    have hpar : usesParallel (some w) = true := by
      simp [usesParallel]
      omega
    have hperm : (findPdfFiles walk).Perm (sched.perm (findPdfFiles walk)) :=
      (sched.is_perm (findPdfFiles walk)).symm
    obtain ⟨hop, hofs⟩ := runDocs_perm env outf dpi hperm fs hnd
    simp only [ocr_pdfs_to_text, hlist, Bool.false_eq_true, if_false, foldStats_eq]
    rw [show usesParallel none = false from rfl, hpar]
    simp only [Bool.false_eq_true, if_false, if_true]
    exact ⟨trivial, hop.countP_eq _, hop.countP_eq _, (hop.filter _).map _,
      hofs, hmode⟩

/-- C8 counterexample: two same-named documents in sibling directories
share one output path; processed sequentially the first one's text wins,
processed in the reverse completion order with 4 workers the second one's
text wins — the artifact contents differ between the two modes. -/
theorem C8_counterexample :
    (ocr_pdfs_to_text envTwoDocs schedRev fsEmpty walkDupNames "out" 300
        none).2 "out/doc.txt"
      = some ("--- Page 1 ---\nAlpha\n")
    ∧ (ocr_pdfs_to_text envTwoDocs schedRev fsEmpty walkDupNames "out" 300
        (some 4)).2 "out/doc.txt"
      = some ("--- Page 1 ---\nBeta\n")
    ∧ (ocr_pdfs_to_text envTwoDocs schedRev fsEmpty walkDupNames "out" 300
        none).2 "out/doc.txt"
      ≠ (ocr_pdfs_to_text envTwoDocs schedRev fsEmpty walkDupNames "out" 300
        (some 4)).2 "out/doc.txt" := by decide

/-- C8 witness: the amended statement applied to a concrete corpus of two
distinctly named documents, 4 workers and a reversing completion order. -/
theorem C8_concurrency_equiv_witness :
    ((ocr_pdfs_to_text envTwoFiles schedRev fsEmpty walkTwoFiles "out" 300
        none).1.successful
      = (ocr_pdfs_to_text envTwoFiles schedRev fsEmpty walkTwoFiles "out" 300
        (some 4)).1.successful)
    ∧ ((ocr_pdfs_to_text envTwoFiles schedRev fsEmpty walkTwoFiles "out" 300
        none).2
      = (ocr_pdfs_to_text envTwoFiles schedRev fsEmpty walkTwoFiles "out" 300
        (some 4)).2) :=
  ⟨(C8_concurrency_equiv envTwoFiles schedRev fsEmpty walkTwoFiles "out" 300 4
      (by decide) (by decide)).2.1,
   (C8_concurrency_equiv envTwoFiles schedRev fsEmpty walkTwoFiles "out" 300 4
      (by decide) (by decide)).2.2.2.2.1⟩

/-! Line structure of the assembled artifact. -/

theorem modifyHead_append {α : Type} (f : α → α) (l l' : List α) (h : l ≠ []) :
    (l ++ l').modifyHead f = l.modifyHead f ++ l' := by
  cases l with
  | nil => exact absurd rfl h
  | cons a t => rfl

theorem splitLines_ne_nil (l : List Char) : splitLines l ≠ [] := by
  induction l with
  | nil => simp [splitLines]
  | cons c cs ih =>
    rw [splitLines]
    by_cases h : c = '\n'
    · rw [if_pos h]; simp
    · rw [if_neg h]
      cases hs : splitLines cs with
      | nil => exact absurd hs ih
      | cons r rs => simp [List.modifyHead]

theorem splitLines_append_nl (a b : List Char) :
    splitLines (a ++ '\n' :: b) = splitLines a ++ splitLines b := by
  induction a with
  | nil => simp [splitLines]
  | cons c cs ih =>
    by_cases h : c = '\n'
    · subst h
      show splitLines ('\n' :: (cs ++ '\n' :: b)) = _
      rw [splitLines, if_pos rfl, ih]
      rw [show splitLines ('\n' :: cs) = [] :: splitLines cs from by
        rw [splitLines, if_pos rfl]]
      rfl
    · show splitLines (c :: (cs ++ '\n' :: b)) = _
      rw [splitLines, if_neg h, ih]
      rw [show splitLines (c :: cs) = (splitLines cs).modifyHead (fun l => c :: l)
        from by rw [splitLines, if_neg h]]
      rw [modifyHead_append _ _ _ (splitLines_ne_nil cs)]

theorem splitLines_no_nl (l : List Char) (h : '\n' ∉ l) : splitLines l = [l] := by
  induction l with
  | nil => rfl
  | cons c cs ih =>
    rw [splitLines, if_neg (fun hc => h (List.mem_cons.mpr (Or.inl hc.symm)))]
    rw [ih (fun hm => h (List.mem_cons_of_mem c hm))]
    rfl

theorem splitLines_joinNL : ∀ (l : List String), l ≠ [] →
    splitLines (pyJoinNL l).data = l.flatMap (fun s => splitLines s.data) := by
  intro l
  induction l with
  | nil => intro h; exact absurd rfl h
  | cons s rest ih =>
    intro _
    cases rest with
    | nil => simp [pyJoinNL]
    | cons t ts =>
      have hdata : (pyJoinNL (s :: t :: ts)).data
          = s.data ++ '\n' :: (pyJoinNL (t :: ts)).data := by
        show (s ++ "\n" ++ pyJoinNL (t :: ts)).data = _
        rw [String.data_append, String.data_append, List.append_assoc]
        rfl
      rw [hdata, splitLines_append_nl, ih (by simp)]
      simp [List.flatMap_cons]

theorem digitChar_ne_nl (d : Nat) (hd : d < 10) : Nat.digitChar d ≠ '\n' := by
  interval_cases d <;> decide

theorem toDigitsCore_no_nl :
    ∀ (fuel n : Nat) (ds : List Char), '\n' ∉ ds →
      '\n' ∉ Nat.toDigitsCore 10 fuel n ds := by
  intro fuel
  induction fuel with
  | zero => intro n ds h; exact h
  | succ f ih =>
    intro n ds h
    have hd : '\n' ∉ Nat.digitChar (n % 10) :: ds := by
      intro hm
      rcases List.mem_cons.mp hm with he | hm2
      · exact digitChar_ne_nl (n % 10) (Nat.mod_lt n (by norm_num)) he.symm
      · exact h hm2
    simp only [Nat.toDigitsCore]
    split
    · exact hd
    · exact ih (n / 10) _ hd

theorem toString_nat_no_nl (n : Nat) : '\n' ∉ (toString n).data := by
  show '\n' ∉ Nat.toDigitsCore 10 (n + 1) n []
  exact toDigitsCore_no_nl (n + 1) n [] (by simp)

theorem markerChars_no_nl (k : Nat) :
    '\n' ∉ ("--- Page ").data ++ (toString k).data ++ (" ---").data := by
  intro hm
  rcases List.mem_append.mp hm with h1 | h2
  · rcases List.mem_append.mp h1 with ha | hb
    · exact (by decide : '\n' ∉ ("--- Page ").data) ha
    · exact toString_nat_no_nl k hb
  · exact (by decide : '\n' ∉ (" ---").data) h2

theorem stripHead_append (a r : List Char) : stripHead a (a ++ r) = some r := by
  induction a with
  | nil => rfl
  | cons c cs ih =>
    show (if c = c then stripHead cs (cs ++ r) else none) = some r
    rw [if_pos rfl]
    exact ih

theorem stripTail_append (t m : List Char) : stripTail t (m ++ t) = some m := by
  rw [stripTail, List.reverse_append, stripHead_append]
  simp

theorem isMarkerLine_marker (k : Nat) :
    isMarkerLine (("--- Page ").data ++ (toString k).data ++ (" ---").data)
      = some ((toString k).data) := by
  rw [isMarkerLine, List.append_assoc, stripHead_append]
  exact stripTail_append (" ---").data ((toString k).data)

/-- The character list of one page entry: the marker line, a newline, the
body (the page text, or the `[No text extracted]` literal), a newline. -/
theorem pageEntry_data (k : Nat) (t : String) :
    (pageEntry k t).data
      = (("--- Page ").data ++ (toString k).data ++ (" ---").data)
        ++ '\n' :: ((if t = "" then ("[No text extracted]") else t).data ++ ['\n']) := by
  by_cases ht : t = ""
  · rw [pageEntry, if_neg (by simp [ht]), if_pos ht]
    rw [String.data_append, String.data_append]
    rw [show (" ---\n[No text extracted]\n").data
        = (" ---").data ++ '\n' :: (("[No text extracted]").data ++ ['\n']) from rfl]
    simp [List.append_assoc]
  · rw [pageEntry, if_pos (by simp [ht]), if_neg ht]
    rw [String.data_append, String.data_append, String.data_append]
    rw [show (" ---\n").data = (" ---").data ++ ['\n'] from rfl]
    rw [show ("\n").data = ['\n'] from rfl]
    simp [List.append_assoc]

theorem splitLines_entry (k : Nat) (t : String) :
    splitLines (pageEntry k t).data
      = (("--- Page ").data ++ (toString k).data ++ (" ---").data)
        :: (splitLines (if t = "" then ("[No text extracted]") else t).data ++ [[]]) := by
  rw [pageEntry_data, splitLines_append_nl,
    splitLines_no_nl _ (markerChars_no_nl k)]
  rw [show ((if t = "" then ("[No text extracted]") else t).data ++ ['\n'])
      = ((if t = "" then ("[No text extracted]") else t).data ++ '\n' :: []) from rfl]
  rw [splitLines_append_nl]
  rfl

/-- The marker lines of the assembled entries for pages `n, n+1, ...` are
exactly the numbers `n` through `n + count - 1`, in order — provided no
recognized page text contains a line that itself parses as a marker. -/
theorem pageEntries_markers {Img : Type} (env : Env Img) :
    ∀ (imgs : List Img) (n : Nat),
      (∀ img ∈ imgs, ∀ line ∈ splitLines
          (extract_text_from_image (env.recognize img)).data,
          isMarkerLine line = none) →
      (((pageEntries env n imgs).flatMap (fun s => splitLines s.data)).filterMap
          isMarkerLine)
        = (List.range' n imgs.length).map (fun k => (toString k).data) := by
  intro imgs
  induction imgs with
  | nil => intro n _; rfl
  | cons i rest ih =>
    intro n h
    have hbody : ∀ line ∈ splitLines
        (if extract_text_from_image (env.recognize i) = ""
          then ("[No text extracted]")
          else extract_text_from_image (env.recognize i)).data,
        isMarkerLine line = none := by
      by_cases ht : extract_text_from_image (env.recognize i) = ""
      · rw [if_pos ht]
        intro line hl
        rw [show splitLines ("[No text extracted]").data
            = [("[No text extracted]").data] from rfl] at hl
        rcases List.mem_cons.mp hl with he | hn
        · rw [he]; rfl
        · cases hn
      · rw [if_neg ht]
        exact h i (List.mem_cons_self i rest)
    show ((pageEntry n (extract_text_from_image (env.recognize i))
        :: pageEntries env (n + 1) rest).flatMap
          (fun s => splitLines s.data)).filterMap isMarkerLine = _
    rw [List.flatMap_cons, List.filterMap_append, splitLines_entry]
    rw [List.filterMap_cons]
    rw [isMarkerLine_marker n]
    rw [List.filterMap_append]
    rw [List.filterMap_eq_nil_iff.mpr hbody]
    rw [show (([[]] : List (List Char)).filterMap isMarkerLine) = [] from rfl]
    rw [ih (n + 1) (fun img hm => h img (List.mem_cons_of_mem i hm))]
    rw [show List.range' n (i :: rest).length = n :: List.range' (n + 1) rest.length
      from List.range'_succ n rest.length 1]
    rfl

/-- C4 (amended): for a written artifact of an `N`-page document
(`N >= 1`), the artifact's marker lines are exactly `--- Page 1 ---`
through `--- Page N ---`, in strictly increasing order with no gaps or
duplicates and in rasterization order, with empty pages represented by the
literal `[No text extracted]` and the entry count equal to the page
count — PROVIDED no recognized page text itself contains a line of the
marker shape (otherwise the artifact contains extra marker lines, see the
counterexample). -/
theorem C4_amended {Img : Type} (env : Env Img) (fs : Fs) (p outf : String)
    (dpi : Nat) (imgs : List Img)
    (h0 : fs (outFile p outf) = none)
    (h1 : env.rasterize p dpi = Except.ok imgs)
    (h2 : imgs ≠ [])
    (h3 : env.writeCrash (outFile p outf) = none)
    (hyg : ∀ img ∈ imgs, ∀ line ∈ splitLines
        (extract_text_from_image (env.recognize img)).data,
        isMarkerLine line = none) :
    process_single_pdf env fs p outf dpi
      = ((true, p, outFile p outf),
         Fs.update fs (outFile p outf) (pyJoinNL (pageEntries env 1 imgs)))
    ∧ ((splitLines (pyJoinNL (pageEntries env 1 imgs)).data).filterMap
          isMarkerLine
        = (List.range' 1 imgs.length).map (fun k => (toString k).data))
    ∧ (pageEntries env 1 imgs).length = imgs.length
    ∧ (∀ n : Nat, pageEntry n ""
        = "--- Page " ++ toString n ++ " ---\n[No text extracted]\n") := by
  refine ⟨?_, ?_, pageEntries_length env imgs 1, ?_⟩
  · rw [process_convert env fs p outf dpi h0]
    have hs := assembled_strip_ne_empty env imgs h2
    simp only [convertResult, h1, h3]
    rw [if_neg (by simp [List.isEmpty_iff, h2])]
    rw [if_neg hs]
  · have hne : pageEntries env 1 imgs ≠ [] := by
      intro hcon
      have hl := pageEntries_length env imgs 1
      rw [hcon] at hl
      exact h2 (List.length_eq_zero.mp hl.symm)
    rw [splitLines_joinNL _ hne, pageEntries_markers env imgs 1 hyg]
  · intro n
    rw [pageEntry, if_neg (by simp)]

/-- C4 counterexample: a one-page document whose recognized text is itself
the line `--- Page 2 ---` yields an artifact whose marker lines are
`1` and `2` — not exactly `--- Page 1 ---` through `--- Page N ---` for
`N = 1`, so the claim as stated fails without a marker-hygiene proviso. -/
theorem C4_counterexample :
    (process_single_pdf envFakeMarker fsEmpty "in/d.pdf" "out" 300).2 "out/d.txt"
      = some ("--- Page 1 ---\n--- Page 2 ---\n")
    ∧ ((splitLines ("--- Page 1 ---\n--- Page 2 ---\n").data).filterMap
          isMarkerLine
        ≠ (List.range' 1 1).map (fun k => (toString k).data)) := by decide

/-- C4 witness: the amended statement applied to a concrete one-page
document with ordinary recognized text. -/
theorem C4_amended_witness :
    process_single_pdf envTwoFiles fsEmpty "in/a.pdf" "out" 300
      = ((true, "in/a.pdf", outFile "in/a.pdf" "out"),
         Fs.update fsEmpty (outFile "in/a.pdf" "out")
           (pyJoinNL (pageEntries envTwoFiles 1 [0])))
    ∧ ((splitLines (pyJoinNL (pageEntries envTwoFiles 1 [0])).data).filterMap
          isMarkerLine
        = (List.range' 1 (List.length [0])).map (fun k => (toString k).data))
    ∧ (pageEntries envTwoFiles 1 [0]).length = List.length [0]
    ∧ (∀ n : Nat, pageEntry n ""
        = "--- Page " ++ toString n ++ " ---\n[No text extracted]\n") :=
  C4_amended envTwoFiles fsEmpty "in/a.pdf" "out" 300 [0] rfl rfl (by decide)
    rfl (by decide)

end ChiomaOCR
